import Mathlib

/-!
Verification of the sync-and-search core of the webflow-cms-search repository.

The embedding models, from the TypeScript source:
  - `buildSearchText`            (src/app/api/sync/route.ts)
  - `fetchCollectionItems`       (src/app/api/sync/route.ts, pagination loop)
  - the sync `GET` handler       (src/app/api/sync/route.ts)
  - `resolveCollections`         (src/app/api/sync/route.ts, search-variant)
  - the LIKE-based search `GET`  (src/app/api/search/route.ts)
  - `formatFtsQuery` and the FTS5 search `GET` (FTS route variant)
  - `searchItems` of the browser client (src/src/client/client-search.ts)

JavaScript strings are modelled as Lean `String`; `toLowerCase` is modelled
as a character-wise ASCII case fold (`jsToLower`), matching both the
basic-latin behaviour of JS `toLowerCase` and the ASCII folding SQLite
applies in `LIKE` and `LOWER`.
-/

/-- A JSON-like value as stored in an item's `fieldData` record.
`typeof value === "string"` holds exactly for the `str` constructor. -/
inductive JsVal where
  | str (s : String)
  | num (n : Int)
  | boolean (b : Bool)
  | null
  | arr (elems : List JsVal)
  | obj (fields : List (String × JsVal))
deriving Repr

/-- `typeof value === "string"` check used by `buildSearchText`. -/
def JsVal.isStr : JsVal → Bool
  | .str _ => true
  | _ => false

/-- Extract the payload of a string value, `none` for any other value. -/
def JsVal.asStr? : JsVal → Option String
  | .str s => some s
  | _ => none

/-- Character-wise ASCII case fold of a string, modelling JS
`String.prototype.toLowerCase` on basic-latin text (ASCII is the only
fragment the matching logic of the repository depends on). -/
def jsToLower (s : String) : String :=
  ⟨s.data.map Char.toLower⟩

/-- A `fieldData` record: key/value pairs in insertion order. -/
abbrev FieldData := List (String × JsVal)

/-- From src/app/api/sync/route.ts:
```
function buildSearchText(fieldData) {
  return Object.values(fieldData)
    .filter((value) => typeof value === "string")
    .join(" ")
    .toLowerCase();
}
```
`Object.values` in insertion order is `map Prod.snd`; `.join(" ")` on the
string values is `String.intercalate " "` after extracting payloads. -/
def buildSearchText (fieldData : FieldData) : String :=
  jsToLower (String.intercalate " "
    (((fieldData.map Prod.snd).filter JsVal.isStr).filterMap JsVal.asStr?))

/-- The string-valued entries of a `fieldData` record in insertion order,
written from the words of the spec (used to compare with the source
definition `buildSearchText`). -/
def stringEntries (fieldData : FieldData) : List String :=
  fieldData.filterMap (fun kv => kv.2.asStr?)

/-- Webflow collection metadata (src/app/api/sync/route.ts). -/
structure Collection where
  id : String
  slug : String
  displayName : String
  singularName : String
deriving Repr, DecidableEq

/-- A remote CMS item; only the fields the modelled code reads. -/
structure WebflowItem where
  id : String
  fieldData : FieldData
deriving Repr

/-- One page of the upstream items endpoint:
`{ items, pagination: { total } }` (the `limit`/`offset` echo fields are
never read by the code). -/
structure WebflowResponse where
  items : List WebflowItem
  total : Nat
deriving Repr

/-- The pagination loop of `fetchCollectionItems`
(src/app/api/sync/route.ts lines 65-94).  `pages offset` is the upstream's
response to `GET …?offset=offset&limit=limit` (`Except.error s` is a
non-success HTTP status `s`, which the code turns into a thrown error).
`fuel` bounds the number of iterations so that the definition is total;
`none` means the fuel ran out.  On success the result carries the
accumulated items and the number of page requests issued. -/
def fetchLoop (pages : Nat → Except Nat WebflowResponse) (limit : Nat) :
    Nat → Nat → List WebflowItem → Nat → Option (Except Nat (List WebflowItem) × Nat)
  | 0, _, _, _ => none
  | fuel + 1, offset, acc, reqs =>
    match pages offset with
    | .error status => some (.error status, reqs + 1)
    | .ok data =>
      let acc2 := acc ++ data.items
      if data.items.length < limit || decide (acc2.length ≥ data.total) then
        some (.ok acc2, reqs + 1)
      else
        fetchLoop pages limit fuel (offset + limit) acc2 (reqs + 1)

/-- `fetchCollectionItems` generalised over the requested page size
(the source hardwires `const limit = 100`, see `fetchCollectionItems`). -/
def fetchAllItems (pages : Nat → Except Nat WebflowResponse) (limit fuel : Nat) :
    Option (Except Nat (List WebflowItem) × Nat) :=
  fetchLoop pages limit fuel 0 [] 0

/-- `fetchCollectionItems` from src/app/api/sync/route.ts with its
hardwired `const limit = 100`. -/
def fetchCollectionItems (pages : Nat → Except Nat WebflowResponse) (fuel : Nat) :
    Option (Except Nat (List WebflowItem) × Nat) :=
  fetchAllItems pages 100 fuel

/-- An honest upstream over an item list `L`: every page request at
`offset` is served `min P (L.length - offset)` items and the true total. -/
def honestPages (L : List WebflowItem) (P : Nat) : Nat → Except Nat WebflowResponse :=
  fun offset => .ok ⟨(L.drop offset).take P, L.length⟩

/-- An upstream serving the items of `L` in honest pages but reporting a
(possibly wrong) constant total `T`. -/
def pagesWithTotal (L : List WebflowItem) (P T : Nat) : Nat → Except Nat WebflowResponse :=
  fun offset => .ok ⟨(L.drop offset).take P, T⟩

/-- Number of page requests the loop is expected to issue for `N` items at
page size `P`: one request when `N = 0`, otherwise `⌈N / P⌉`. -/
def expectedRequests (N P : Nat) : Nat :=
  if N = 0 then 1 else (N + P - 1) / P

/-- Case-insensitive token match of `resolveCollections`: the token `name`
(already trimmed and lowercased) matches a collection whose slug, display
name, or singular name equals it after lowercasing. -/
def tokMatch (name : String) (c : Collection) : Bool :=
  jsToLower c.slug == name || jsToLower c.displayName == name ||
    jsToLower c.singularName == name

/-- JS `.filter(Boolean)` on a list of `string | undefined`: drops
`undefined` and the (falsy) empty string. -/
def jsFilterTruthy (l : List (Option String)) : List String :=
  l.filterMap fun o =>
    match o with
    | some s => if s = "" then none else some s
    | none => none

/-- Split a character list at every character satisfying `p`, keeping
empty segments (the behaviour of JS `String.prototype.split` with a
single-character separator, and of splitting on a whitespace class when
empty segments are filtered afterwards). -/
def splitAtChar (p : Char → Bool) : List Char → List Char → List (List Char)
  | [], cur => [cur.reverse]
  | c :: cs, cur =>
    if p c then cur.reverse :: splitAtChar p cs []
    else splitAtChar p cs (c :: cur)

/-- JS `s.split(sep)` for a one-character separator. -/
def jsSplit (sep : Char) (s : String) : List String :=
  (splitAtChar (· == sep) s.data []).map List.asString

/-- JS `String.prototype.trim`: strip leading and trailing whitespace. -/
def jsTrim (s : String) : String :=
  ⟨((s.data.dropWhile Char.isWhitespace).reverse.dropWhile Char.isWhitespace).reverse⟩

/-- The comma-split, trimmed, lowercased tokens of a requested-collections
parameter (shared by `resolveCollections` and both search routes):
`requested.split(",").map((n) => n.trim().toLowerCase())`. -/
def requestTokens (requested : String) : List String :=
  (jsSplit ',' requested).map fun n => jsToLower (jsTrim n)

/-- `resolveCollections` from the search variant embedded in
src/app/api/sync/route.ts (lines 420-442):
```
if (requested.toLowerCase() === "all") return collections.map((c) => c.id);
const requestedNames = requested.split(",").map((n) => n.trim().toLowerCase());
return requestedNames
  .map((name) => { const found = collections.find(...); return found?.id; })
  .filter((id): id is string => Boolean(id));
``` -/
def resolveCollections (requested : String) (collections : List Collection) :
    List String :=
  if jsToLower requested == "all" then
    collections.map (·.id)
  else
    jsFilterTruthy ((requestTokens requested).map fun name =>
      (collections.find? (tokMatch name)).map (·.id))

/-- A row of the `items` table (and of its `items_fts` mirror); the
`field_data` column is kept structurally instead of JSON-serialised. -/
structure ItemRow where
  id : String
  name : String
  slug : String
  collectionId : String
  collectionSlug : String
  fieldData : FieldData
  searchText : String
deriving Repr

/-- The D1-backed store: `collections` and `items` tables, the `items_fts`
full-text mirror, and the `sync_meta` key/value table. -/
structure DbStore where
  collections : List Collection
  items : List ItemRow
  fts : List ItemRow
  syncMeta : List (String × String)
deriving Repr

/-- The projection both search routes return per row
(`id, name, slug, collectionId, fieldData`). -/
structure SearchResult where
  id : String
  name : String
  slug : String
  collectionId : String
  fieldData : FieldData
deriving Repr

/-- Response of a search route: a result page with its total, or an HTTP
error status. -/
inductive SearchResp where
  | ok (results : List SearchResult) (total : Nat)
  | err (status : Nat)
deriving Repr

/-- The results carried by a response (`[]` for an error response). -/
def SearchResp.resultsOf : SearchResp → List SearchResult
  | .ok results _ => results
  | .err _ => []

/-- Row-to-result projection used by the SELECT lists of both routes. -/
def itemToResult (row : ItemRow) : SearchResult :=
  { id := row.id, name := row.name, slug := row.slug,
    collectionId := row.collectionId, fieldData := row.fieldData }

/-- SQL `LIKE` pattern matching as implemented by SQLite with no ESCAPE
clause (the external database engine behind the drizzle `like(...)` call in
src/app/api/search/route.ts): `%` matches any sequence of characters, `_`
matches any single character, and ordinary characters compare
case-insensitively over ASCII. -/
def likeMatch (p s : List Char) : Bool :=
  match p, s with
  | [], s => s.isEmpty
  | c :: ps, [] => if c = '%' then likeMatch ps [] else false
  | c :: ps, d :: ds =>
    if c = '%' then likeMatch ps (d :: ds) || likeMatch (c :: ps) ds
    else if c = '_' then likeMatch ps ds
    else (c.toLower == d.toLower) && likeMatch ps ds
termination_by (p.length, s.length)

/-- `text LIKE pattern` over Lean strings. -/
def sqlLike (text pattern : String) : Bool :=
  likeMatch pattern.data text.data

/-- The JS falsiness test `!x` applied to a nullable query parameter:
true for an absent parameter and for a present-but-empty one. -/
def strFalsy : Option String → Bool
  | none => true
  | some s => s == ""

/-- The `collections` query parameter after the JS default
`searchParams.get("collections") || "all"` (an absent or empty parameter
falls back to `"all"`). -/
def collectionsParamOf (cparam : Option String) : String :=
  match cparam with
  | none => "all"
  | some s => if s = "" then "all" else s

/-- The inline collection filter shared by the LIKE search route
(src/app/api/search/route.ts lines 64-73) and the FTS route's SQL
subquery: the slugs of the collections whose lowercased slug, display
name, or singular name is among the requested tokens. -/
def matchingSlugsFor (collections : List Collection) (requestedNames : List String) :
    List String :=
  (collections.filter fun c =>
    requestedNames.contains (jsToLower c.slug) ||
    requestedNames.contains (jsToLower c.displayName) ||
    requestedNames.contains (jsToLower c.singularName)).map (·.slug)

/-- The LIKE-based search route `GET` of src/app/api/search/route.ts.
`q` and `cparam` are the values of the `q` and `collections` query
parameters (`none` = absent).  The WHERE clause on the non-`"all"` branch
is `and(collectionFilter, like(searchText, lowerQuery))`; drizzle's
`eq`/`inArray` split for a single slug is membership in the slug list
either way. -/
def likeSearchGET (st : DbStore) (q : Option String) (cparam : Option String) :
    SearchResp :=
  if strFalsy q then .err 400
  else
    let query := q.getD ""
    let lowerQuery := "%" ++ jsToLower query ++ "%"
    let collectionsParam := collectionsParamOf cparam
    if jsToLower collectionsParam == "all" then
      let rows := st.items.filter fun row => sqlLike row.searchText lowerQuery
      .ok (rows.map itemToResult) (rows.map itemToResult).length
    else
      let requestedNames := requestTokens collectionsParam
      let matchingSlugs := matchingSlugsFor st.collections requestedNames
      if matchingSlugs.isEmpty then .ok [] 0
      else
        let rows := st.items.filter fun row =>
          matchingSlugs.contains row.collectionSlug && sqlLike row.searchText lowerQuery
        .ok (rows.map itemToResult) (rows.map itemToResult).length

/-- JS `query.replace(/"/g, c0 + c0)` doubling every double-quote
character. -/
def doubleQuotes (s : String) : String :=
  ⟨s.data.flatMap fun c => if c = '"' then ['"', '"'] else [c]⟩

/-- The whitespace tokens of the quote-doubled query, as computed by
`formatFtsQuery`: `escaped.trim().split(/\s+/).filter(Boolean)` (splitting
the trimmed string on single whitespace characters and dropping empty
segments is the same as splitting on whitespace runs). -/
def ftsTokens (query : String) : List String :=
  ((splitAtChar Char.isWhitespace (jsTrim (doubleQuotes query)).data []).map
    List.asString).filter (· ≠ "")

/-- `formatFtsQuery` from the FTS route variant:
```
const escaped = query.replace(/"/g, '""');
const words = escaped.trim().split(/\s+/).filter(Boolean);
if (words.length === 0) return '""';
return words.map((w) => `"${w}"*`).join(" ");
``` -/
def formatFtsQuery (query : String) : String :=
  let words := ftsTokens query
  if words.isEmpty then "\"\""
  else String.intercalate " " (words.map fun w => "\"" ++ w ++ "\"*")

/-- The FTS5 search route `GET` (FTS route variant).  The match semantics
of the external FTS5 engine are abstracted as `ftsMatch ftsQuery row`; the
route's own logic — parameter validation, query formatting, the
collection-slug subquery filter, and `LIMIT 100` — is modelled from the
SQL it issues. -/
def ftsSearchGET (ftsMatch : String → ItemRow → Bool) (st : DbStore)
    (q : Option String) (cparam : Option String) : SearchResp :=
  if strFalsy q then .err 400
  else
    let query := q.getD ""
    let ftsQuery := formatFtsQuery query
    let collectionsParam := collectionsParamOf cparam
    if jsToLower collectionsParam == "all" then
      let rows := (st.fts.filter fun row => ftsMatch ftsQuery row).take 100
      .ok (rows.map itemToResult) (rows.map itemToResult).length
    else
      let requestedNames := requestTokens collectionsParam
      let okSlugs := matchingSlugsFor st.collections requestedNames
      let rows := (st.fts.filter fun row =>
        okSlugs.contains row.collectionSlug && ftsMatch ftsQuery row).take 100
      .ok (rows.map itemToResult) (rows.map itemToResult).length

/-- JS `String.prototype.includes`: contiguous-substring containment. -/
def strIncludes (s sub : String) : Bool :=
  decide (sub.data <:+: s.data)

/-- The result shape of the browser client (includes `collectionSlug`). -/
structure ClientResult where
  id : String
  name : String
  slug : String
  collectionId : String
  collectionSlug : String
  fieldData : FieldData
deriving Repr

/-- Client row-to-result projection. -/
def rowToClientResult (row : ItemRow) : ClientResult :=
  { id := row.id, name := row.name, slug := row.slug,
    collectionId := row.collectionId, collectionSlug := row.collectionSlug,
    fieldData := row.fieldData }

/-- `searchItems` from src/src/client/client-search.ts (lines 85-102):
returns `[]` for a blank (whitespace-only) query, otherwise filters the
cached rows by `item.searchText.includes(query.toLowerCase())`. -/
def clientSearchItems (items : List ItemRow) (query : String) : List ClientResult :=
  if jsTrim query = "" then []
  else
    let lowerQuery := jsToLower query
    (items.filter fun item => strIncludes item.searchText lowerQuery).map
      rowToClientResult

/-- The property the spec words ask of substring search: `s` contains
`sub` as a contiguous substring. -/
def containsSubstring (s sub : String) : Prop :=
  ∃ pre post, s.data = pre ++ sub.data ++ post

/-- A prepared statement of the sync batch
(src/app/api/sync/route.ts lines 148-191). -/
inductive D1Stmt where
  | deleteItems
  | deleteCollections
  | deleteFts
  | insertCollection (c : Collection)
  | insertItem (row : ItemRow)
  | insertFts (row : ItemRow)
  | upsertMeta (key value : String)
deriving Repr

/-- Upsert into the `sync_meta` key/value table
(`INSERT ... ON CONFLICT(key) DO UPDATE`). -/
def upsertMetaRow (meta : List (String × String)) (key value : String) :
    List (String × String) :=
  if meta.any (fun kv => kv.1 == key) then
    meta.map fun kv => if kv.1 == key then (key, value) else kv
  else meta ++ [(key, value)]

/-- Effect of one statement on the store. -/
def applyStatement (st : DbStore) : D1Stmt → DbStore
  | .deleteItems => { st with items := [] }
  | .deleteCollections => { st with collections := [] }
  | .deleteFts => { st with fts := [] }
  | .insertCollection c => { st with collections := st.collections ++ [c] }
  | .insertItem row => { st with items := st.items ++ [row] }
  | .insertFts row => { st with fts := st.fts ++ [row] }
  | .upsertMeta k v => { st with syncMeta := upsertMetaRow st.syncMeta k v }

/-- Executing a statement list in order.  The code sends the list in
chunks of 400 through `d1.batch`; executing chunk after chunk applies the
very same statements in the very same order, so the fold over the full
list is the combined effect. -/
def applyStatements (st : DbStore) (stmts : List D1Stmt) : DbStore :=
  stmts.foldl applyStatement st

/-- `(item.fieldData.name as string) || ""`: the string payload of a field,
`""` when the field is absent or empty.  (A truthy non-string value would
leak through the JS cast; no claim depends on the `name`/`slug` columns of
such degenerate items, so they are modelled as `""`.) -/
def fieldStrOr (fd : FieldData) (key : String) : String :=
  match fd.lookup key with
  | some (.str s) => s
  | _ => ""

/-- The `items`/`items_fts` row staged for one fetched item
(src/app/api/sync/route.ts lines 166-183). -/
def itemToRow (c : Collection) (item : WebflowItem) : ItemRow :=
  { id := item.id
    name := fieldStrOr item.fieldData "name"
    slug := fieldStrOr item.fieldData "slug"
    collectionId := c.id
    collectionSlug := c.slug
    fieldData := item.fieldData
    searchText := buildSearchText item.fieldData }

/-- The full statement list built by the sync handler: three deletes, the
collection inserts, an `items` and an `items_fts` insert per item, and the
`last_sync` upsert. -/
def buildStatements (collections : List Collection)
    (allItems : List (Collection × WebflowItem)) (syncedAt : String) : List D1Stmt :=
  [D1Stmt.deleteItems, D1Stmt.deleteCollections, D1Stmt.deleteFts] ++
  collections.map D1Stmt.insertCollection ++
  (allItems.flatMap fun ci =>
    [D1Stmt.insertItem (itemToRow ci.1 ci.2), D1Stmt.insertFts (itemToRow ci.1 ci.2)]) ++
  [D1Stmt.upsertMeta "last_sync" syncedAt]

/-- The upstream CMS as the sync handler sees it: the collection-list
endpoint and, per collection id, the paginated items endpoint. -/
structure SyncUpstream where
  collectionsResp : Except Nat (List Collection)
  itemPages : String → Nat → Except Nat WebflowResponse

/-- Sequential per-collection item fetching (the `for` loop of the sync
handler).  The first upstream failure aborts the whole run; `none` means a
pagination loop ran out of fuel. -/
def fetchPerCollection (up : SyncUpstream) (fuel : Nat) :
    List Collection → Option (Except Nat (List (Collection × List WebflowItem)))
  | [] => some (.ok [])
  | c :: rest =>
    match fetchCollectionItems (up.itemPages c.id) fuel with
    | none => none
    | some (.error status, _) => some (.error status)
    | some (.ok items, _) =>
      match fetchPerCollection up fuel rest with
      | none => none
      | some (.error status) => some (.error status)
      | some (.ok tail) => some (.ok ((c, items) :: tail))

/-- Response of the sync handler. -/
inductive SyncResp where
  | ok (collectionsCount itemsCount : Nat) (collections : List (String × Nat))
      (syncedAt : String)
  | err (status : Nat)
deriving Repr

/-- True for the error responses of the sync handler. -/
def SyncResp.isErr : SyncResp → Bool
  | .ok _ _ _ _ => false
  | .err _ => true

/-- The sync handler `GET` of src/app/api/sync/route.ts from the top of
its `try` block (auth and env checks, which precede any upstream or store
interaction, are not modelled): fetch the collection list, fetch every
collection's items, and only then build and execute the statement batch.
Any upstream failure is caught and turned into a 500 response with the
store untouched.  `now` is the `new Date().toISOString()` timestamp. -/
def syncGET (up : SyncUpstream) (fuel : Nat) (now : String) (st : DbStore) :
    Option (DbStore × SyncResp) :=
  match up.collectionsResp with
  | .error _ => some (st, .err 500)
  | .ok collections =>
    match fetchPerCollection up fuel collections with
    | none => none
    | some (.error _) => some (st, .err 500)
    | some (.ok perCollection) =>
      let allItems := perCollection.flatMap fun ci => ci.2.map fun it => (ci.1, it)
      let totalItems := (perCollection.map fun ci => ci.2.length).sum
      let collectionResults := perCollection.map fun ci => (ci.1.slug, ci.2.length)
      let stmts := buildStatements collections allItems now
      some (applyStatements st stmts,
        .ok collections.length totalItems collectionResults now)

/-- An upstream that serves a full page of `P` copies of `item` at every
offset while reporting the constant total `T` (used to probe the
termination logic of the pagination loop). -/
def fullPages (item : WebflowItem) (T P : Nat) : Nat → Except Nat WebflowResponse :=
  fun _ => .ok ⟨List.replicate P item, T⟩

/-- The filter-then-extract pipeline of `buildSearchText` computes exactly
the string-valued entries in insertion order. -/
theorem stringEntries_eq (fd : FieldData) :
    ((fd.map Prod.snd).filter JsVal.isStr).filterMap JsVal.asStr? = stringEntries fd := by
  induction fd with
  | nil => rfl
  | cons kv rest ih =>
    cases h2 : kv.2 <;>
      simp [stringEntries, JsVal.isStr, JsVal.asStr?, h2, List.filter_cons,
        List.filterMap_cons] <;>
      simpa [stringEntries] using ih

/-- `buildSearchText` as the lowercase of the space-join of the
string-valued entries. -/
theorem buildSearchText_entries (fd : FieldData) :
    buildSearchText fd = jsToLower (String.intercalate " " (stringEntries fd)) := by
  rw [buildSearchText, stringEntries_eq]

/-- Claim C4: `buildSearchText(fieldData)` equals the lowercase of the
space-joined concatenation of exactly the string-valued entries of
`fieldData` in insertion order; non-string entries never contribute
(inserting one anywhere leaves the output unchanged); and the function is
deterministic, so running it twice on the same input yields the same
output. -/
theorem buildSearchText_ok (fd l1 l2 : FieldData) (k : String) (v : JsVal)
    (hv : v.asStr? = none) :
    buildSearchText fd = jsToLower (String.intercalate " " (stringEntries fd)) ∧
    buildSearchText (l1 ++ (k, v) :: l2) = buildSearchText (l1 ++ l2) ∧
    buildSearchText fd = buildSearchText fd := by
  refine ⟨buildSearchText_entries fd, ?_, rfl⟩
  rw [buildSearchText_entries, buildSearchText_entries]
  simp [stringEntries, List.filterMap_append, List.filterMap_cons, hv]

/-- Witness for `buildSearchText_ok` at a concrete record mixing string
and non-string entries. -/
theorem buildSearchText_ok_witness :
    (JsVal.num 7).asStr? = none ∧
    (buildSearchText [("name", .str "Red Shoes"), ("n", .num 7)] =
        jsToLower (String.intercalate " "
          (stringEntries [("name", .str "Red Shoes"), ("n", .num 7)])) ∧
      buildSearchText ([("name", JsVal.str "Red Shoes")] ++
          ("n", JsVal.num 7) :: [("color", JsVal.str "RED")]) =
        buildSearchText ([("name", JsVal.str "Red Shoes")] ++ [("color", JsVal.str "RED")]) ∧
      buildSearchText [("name", .str "Red Shoes"), ("n", .num 7)] =
        buildSearchText [("name", .str "Red Shoes"), ("n", .num 7)]) :=
  ⟨by decide,
    buildSearchText_ok [("name", .str "Red Shoes"), ("n", .num 7)]
      [("name", JsVal.str "Red Shoes")] [("color", JsVal.str "RED")] "n"
      (JsVal.num 7) (by decide)⟩

/-- Claim C7: for every casing of the literal `"all"`, `resolveCollections`
returns the ids of all known collections, and the result is invariant
under changing the casing of the wildcard literal. -/
theorem resolveCollections_all_wildcard (r1 r2 : String) (cols : List Collection)
    (h1 : jsToLower r1 = "all") :
    resolveCollections r1 cols = cols.map (·.id) ∧
    (jsToLower r2 = "all" → resolveCollections r1 cols = resolveCollections r2 cols) := by
  constructor
  · simp [resolveCollections, h1]
  · intro h2
    simp [resolveCollections, h1, h2]

/-- Witness for `resolveCollections_all_wildcard` at `"ALL"` and `"All"`
over a two-collection list. -/
theorem resolveCollections_all_wildcard_witness :
    jsToLower "ALL" = "all" ∧
    (resolveCollections "ALL" [⟨"id1", "blog", "Blog Posts", "Blog Post"⟩,
        ⟨"id2", "news", "News", "News Item"⟩] = ["id1", "id2"] ∧
      (jsToLower "All" = "all" →
        resolveCollections "ALL" [⟨"id1", "blog", "Blog Posts", "Blog Post"⟩,
            ⟨"id2", "news", "News", "News Item"⟩] =
          resolveCollections "All" [⟨"id1", "blog", "Blog Posts", "Blog Post"⟩,
            ⟨"id2", "news", "News", "News Item"⟩])) := by
  refine ⟨by decide, ?_⟩
  have h := resolveCollections_all_wildcard "ALL" "All"
    [⟨"id1", "blog", "Blog Posts", "Blog Post"⟩, ⟨"id2", "news", "News", "News Item"⟩]
    (by decide)
  exact ⟨by decide, h.2⟩

/-- Claim C6: away from the `"all"` wildcard, `resolveCollections` maps
each comma-split, trimmed, lowercased token to at most one collection (the
first whose slug, display name, or singular name matches
case-insensitively), drops unmatched tokens silently, and returns exactly
the ids of collections matched by some token (the function is total, so no
input raises an error). -/
theorem resolveCollections_token_resolution (requested : String)
    (cols : List Collection) (hall : jsToLower requested ≠ "all")
    (hid : ∀ c ∈ cols, c.id ≠ "") :
    (∀ id : String, id ∈ resolveCollections requested cols ↔
      ∃ t ∈ requestTokens requested, ∃ c, cols.find? (tokMatch t) = some c ∧ c.id = id) ∧
    (∀ t c, cols.find? (tokMatch t) = some c → c ∈ cols ∧ tokMatch t c = true) := by
  constructor
  · intro id
    have hne : (jsToLower requested == "all") = false := by
      simpa using hall
    rw [resolveCollections, hne]
    simp only [Bool.false_eq_true, if_false, jsFilterTruthy, List.mem_filterMap,
      List.mem_map]
    constructor
    · rintro ⟨o, ⟨t, ht, rfl⟩, ho⟩
      match hfind : cols.find? (tokMatch t) with
      | none => rw [hfind] at ho; simp at ho
      | some c =>
        rw [hfind] at ho
        simp only [Option.map_some'] at ho
        by_cases hc : c.id = ""
        · rw [if_pos hc] at ho; cases ho
        · rw [if_neg hc] at ho
          cases ho
          exact ⟨t, ht, c, hfind, rfl⟩
    · rintro ⟨t, ht, c, hfind, rfl⟩
      refine ⟨(cols.find? (tokMatch t)).map (·.id), ⟨t, ht, rfl⟩, ?_⟩
      rw [hfind]
      have hc : c.id ≠ "" := hid c (List.mem_of_find?_eq_some hfind)
      simp [hc]
  · intro t c hfind
    exact ⟨List.mem_of_find?_eq_some hfind, List.find?_some hfind⟩

/-- Witness for `resolveCollections_token_resolution` at the request
`"Blog Post, missing"` over two concrete collections: the first token
matches by singular name, the second is silently dropped. -/
theorem resolveCollections_token_resolution_witness :
    jsToLower "Blog Post, missing" ≠ "all" ∧
    (∀ c ∈ [Collection.mk "id1" "blog" "Blog Posts" "Blog Post",
        Collection.mk "id2" "news" "News" "News Item"], c.id ≠ "") ∧
    ((∀ id : String, id ∈ resolveCollections "Blog Post, missing"
        [Collection.mk "id1" "blog" "Blog Posts" "Blog Post",
         Collection.mk "id2" "news" "News" "News Item"] ↔
      ∃ t ∈ requestTokens "Blog Post, missing", ∃ c,
        List.find? (tokMatch t)
          [Collection.mk "id1" "blog" "Blog Posts" "Blog Post",
           Collection.mk "id2" "news" "News" "News Item"] = some c ∧ c.id = id) ∧
     (∀ t c, List.find? (tokMatch t)
          [Collection.mk "id1" "blog" "Blog Posts" "Blog Post",
           Collection.mk "id2" "news" "News" "News Item"] = some c →
        c ∈ [Collection.mk "id1" "blog" "Blog Posts" "Blog Post",
             Collection.mk "id2" "news" "News" "News Item"] ∧ tokMatch t c = true)) :=
  ⟨by decide, by decide,
    resolveCollections_token_resolution "Blog Post, missing"
      [Collection.mk "id1" "blog" "Blog Posts" "Blog Post",
       Collection.mk "id2" "news" "News" "News Item"] (by decide) (by decide)⟩

/-- Claim C10: at the search HTTP boundary (both the LIKE route and the
FTS route), a request whose `q` parameter is present but empty gets the
same 400 validation error as a request with `q` absent: the JS falsiness
check `if (!query)` does not distinguish the two. -/
theorem search_empty_q_is_400 (st : DbStore) (cparam : Option String)
    (ftsM : String → ItemRow → Bool) :
    likeSearchGET st (some "") cparam = SearchResp.err 400 ∧
    likeSearchGET st none cparam = SearchResp.err 400 ∧
    ftsSearchGET ftsM st (some "") cparam = SearchResp.err 400 ∧
    ftsSearchGET ftsM st none cparam = SearchResp.err 400 :=
  ⟨rfl, rfl, rfl, rfl⟩

/-- Claim C3: if fetching the collection list or any item page from the
upstream API fails, the sync handler returns an error response and
executes no write statement, leaving the prior snapshot (collections,
items, full-text index, and last-sync timestamp) exactly as it was.  In
the code all upstream fetches complete before the statement batch is
built, so the statement executor is never reached on a failed fetch. -/
theorem sync_failure_preserves_snapshot (up : SyncUpstream) (fuel : Nat)
    (now : String) (st st2 : DbStore) (resp : SyncResp)
    (hrun : syncGET up fuel now st = some (st2, resp))
    (hfail : (∃ s, up.collectionsResp = .error s) ∨
      (∃ cols s, up.collectionsResp = .ok cols ∧
        fetchPerCollection up fuel cols = some (.error s))) :
    st2 = st ∧ resp = SyncResp.err 500 := by
  rcases hfail with ⟨s, hs⟩ | ⟨cols, s, hcols, hitems⟩
  · simp only [syncGET, hs] at hrun
    cases hrun
    exact ⟨rfl, rfl⟩
  · simp only [syncGET, hcols, hitems] at hrun
    cases hrun
    exact ⟨rfl, rfl⟩

/-- Witness for `sync_failure_preserves_snapshot`: an upstream whose
collection-list endpoint answers 404 leaves a nonempty prior snapshot
unchanged and yields a 500 response. -/
theorem sync_failure_preserves_snapshot_witness :
    syncGET ⟨Except.error 404, fun _ _ => Except.error 404⟩ 1 "t"
        ⟨[⟨"id1", "blog", "Blog Posts", "Blog Post"⟩],
          [⟨"i1", "n", "s", "id1", "blog", [], "n"⟩],
          [⟨"i1", "n", "s", "id1", "blog", [], "n"⟩],
          [("last_sync", "t0")]⟩ =
      some (⟨[⟨"id1", "blog", "Blog Posts", "Blog Post"⟩],
          [⟨"i1", "n", "s", "id1", "blog", [], "n"⟩],
          [⟨"i1", "n", "s", "id1", "blog", [], "n"⟩],
          [("last_sync", "t0")]⟩, SyncResp.err 500) ∧
    (∃ s, (Except.error 404 : Except Nat (List Collection)) = .error s) ∧
    (⟨[⟨"id1", "blog", "Blog Posts", "Blog Post"⟩],
        [⟨"i1", "n", "s", "id1", "blog", [], "n"⟩],
        [⟨"i1", "n", "s", "id1", "blog", [], "n"⟩],
        [("last_sync", "t0")]⟩ : DbStore) =
      ⟨[⟨"id1", "blog", "Blog Posts", "Blog Post"⟩],
        [⟨"i1", "n", "s", "id1", "blog", [], "n"⟩],
        [⟨"i1", "n", "s", "id1", "blog", [], "n"⟩],
        [("last_sync", "t0")]⟩ ∧
    SyncResp.err 500 = SyncResp.err 500 := by
  refine ⟨rfl, ⟨404, rfl⟩, ?_⟩
  exact sync_failure_preserves_snapshot
    ⟨Except.error 404, fun _ _ => Except.error 404⟩ 1 "t" _ _ _ rfl
    (Or.inl ⟨404, rfl⟩)

/-- Claim C5: in both stored-search routes, when the collections filter is
not the `"all"` wildcard, every returned result comes from a row whose
`collection_slug` is in the resolved slug set, so a search whose filter
resolves to collection A never returns an item of a collection B outside
the resolved set (the filter is applied inside the WHERE clause, before
the FTS route's LIMIT cap). -/
theorem search_results_scoped (st : DbStore) (q cp : String)
    (ftsM : String → ItemRow → Bool) (B : Collection)
    (hcp0 : cp ≠ "") (hcp : jsToLower cp ≠ "all")
    (hBslug : B.slug ∉ matchingSlugsFor st.collections (requestTokens cp))
    (hBitems : ∀ row ∈ st.items, row.collectionId = B.id → row.collectionSlug = B.slug)
    (hBfts : ∀ row ∈ st.fts, row.collectionId = B.id → row.collectionSlug = B.slug) :
    (∀ r ∈ (likeSearchGET st (some q) (some cp)).resultsOf,
        ∃ row ∈ st.items, itemToResult row = r ∧
          row.collectionSlug ∈ matchingSlugsFor st.collections (requestTokens cp)) ∧
    (∀ r ∈ (ftsSearchGET ftsM st (some q) (some cp)).resultsOf,
        ∃ row ∈ st.fts, itemToResult row = r ∧
          row.collectionSlug ∈ matchingSlugsFor st.collections (requestTokens cp)) ∧
    (∀ r ∈ (likeSearchGET st (some q) (some cp)).resultsOf, r.collectionId ≠ B.id) ∧
    (∀ r ∈ (ftsSearchGET ftsM st (some q) (some cp)).resultsOf, r.collectionId ≠ B.id) := by
  have h2 : collectionsParamOf (some cp) = cp := by
    simp [collectionsParamOf, hcp0]
  have h3 : (jsToLower cp == "all") = false := by
    simpa using hcp
  have hlike : ∀ r ∈ (likeSearchGET st (some q) (some cp)).resultsOf,
      ∃ row ∈ st.items, itemToResult row = r ∧
        row.collectionSlug ∈ matchingSlugsFor st.collections (requestTokens cp) := by
    intro r hr
    by_cases hq : q = ""
    · subst hq
      simp [likeSearchGET, strFalsy, SearchResp.resultsOf] at hr
    · have h1 : strFalsy (some q) = false := by simp [strFalsy, hq]
      by_cases h4 : (matchingSlugsFor st.collections (requestTokens cp)).isEmpty
      · simp [likeSearchGET, h1, h2, h3, h4, SearchResp.resultsOf] at hr
      · simp only [likeSearchGET, h1, h2, h3, h4, Bool.false_eq_true, if_false,
          Option.getD_some, SearchResp.resultsOf] at hr
        rcases List.mem_map.mp hr with ⟨row, hrowmem, rfl⟩
        rcases List.mem_filter.mp hrowmem with ⟨hrow, hcond⟩
        simp only [Bool.and_eq_true] at hcond
        rcases hcond with ⟨hcontains, -⟩
        refine ⟨row, hrow, rfl, ?_⟩
        simpa [List.contains, List.elem_iff] using hcontains
  have hfts : ∀ r ∈ (ftsSearchGET ftsM st (some q) (some cp)).resultsOf,
      ∃ row ∈ st.fts, itemToResult row = r ∧
        row.collectionSlug ∈ matchingSlugsFor st.collections (requestTokens cp) := by
    intro r hr
    by_cases hq : q = ""
    · subst hq
      simp [ftsSearchGET, strFalsy, SearchResp.resultsOf] at hr
    · have h1 : strFalsy (some q) = false := by simp [strFalsy, hq]
      simp only [ftsSearchGET, h1, h2, h3, Bool.false_eq_true, if_false,
        Option.getD_some, SearchResp.resultsOf] at hr
      rcases List.mem_map.mp hr with ⟨row, hrowmem, rfl⟩
      have hrowmem2 := List.mem_of_mem_take hrowmem
      rcases List.mem_filter.mp hrowmem2 with ⟨hrow, hcond⟩
      simp only [Bool.and_eq_true] at hcond
      rcases hcond with ⟨hcontains, -⟩
      refine ⟨row, hrow, rfl, ?_⟩
      simpa [List.contains, List.elem_iff] using hcontains
  refine ⟨hlike, hfts, ?_, ?_⟩
  · intro r hr hid
    rcases hlike r hr with ⟨row, hrow, hproj, hslug⟩
    have : row.collectionId = B.id := by
      rw [← hproj] at hid
      exact hid
    exact hBslug ((hBitems row hrow this) ▸ hslug)
  · intro r hr hid
    rcases hfts r hr with ⟨row, hrow, hproj, hslug⟩
    have : row.collectionId = B.id := by
      rw [← hproj] at hid
      exact hid
    exact hBslug ((hBfts row hrow this) ▸ hslug)

/-- Witness for `search_results_scoped`: a store with collections "blog"
and "news", the filter `"blog"`, and a query both rows match; no returned
result may carry the news collection's id. -/
theorem search_results_scoped_witness :
    ("blog" : String) ≠ "" ∧
    jsToLower "blog" ≠ "all" ∧
    ("news" : String) ∉ matchingSlugsFor
      [Collection.mk "idA" "blog" "Blog" "Blog", Collection.mk "idB" "news" "News" "News"]
      (requestTokens "blog") ∧
    ((∀ r ∈ (likeSearchGET
        ⟨[Collection.mk "idA" "blog" "Blog" "Blog", Collection.mk "idB" "news" "News" "News"],
         [ItemRow.mk "i1" "a" "a" "idA" "blog" [] "x", ItemRow.mk "i2" "b" "b" "idB" "news" [] "x"],
         [ItemRow.mk "i1" "a" "a" "idA" "blog" [] "x", ItemRow.mk "i2" "b" "b" "idB" "news" [] "x"],
         []⟩ (some "x") (some "blog")).resultsOf, r.collectionId ≠ "idB") ∧
     (∀ r ∈ (ftsSearchGET (fun _ _ => true)
        ⟨[Collection.mk "idA" "blog" "Blog" "Blog", Collection.mk "idB" "news" "News" "News"],
         [ItemRow.mk "i1" "a" "a" "idA" "blog" [] "x", ItemRow.mk "i2" "b" "b" "idB" "news" [] "x"],
         [ItemRow.mk "i1" "a" "a" "idA" "blog" [] "x", ItemRow.mk "i2" "b" "b" "idB" "news" [] "x"],
         []⟩ (some "x") (some "blog")).resultsOf, r.collectionId ≠ "idB")) := by
  refine ⟨by decide, by decide, by decide, ?_⟩
  have h := search_results_scoped
    ⟨[Collection.mk "idA" "blog" "Blog" "Blog", Collection.mk "idB" "news" "News" "News"],
     [ItemRow.mk "i1" "a" "a" "idA" "blog" [] "x", ItemRow.mk "i2" "b" "b" "idB" "news" [] "x"],
     [ItemRow.mk "i1" "a" "a" "idA" "blog" [] "x", ItemRow.mk "i2" "b" "b" "idB" "news" [] "x"],
     []⟩ "x" "blog" (fun _ _ => true) (Collection.mk "idB" "news" "News" "News")
    (by decide) (by decide) (by decide) (by decide) (by decide)
  exact ⟨h.2.2.1, h.2.2.2⟩

/-- `expectedRequests` is always at least one request. -/
theorem expectedRequests_pos (N P : Nat) (hP : 0 < P) :
    1 ≤ expectedRequests N P := by
  unfold expectedRequests
  split
  · exact Nat.le_refl 1
  · have h1 : P ≤ N + P - 1 := by omega
    calc 1 = P / P := (Nat.div_self hP).symm
    _ ≤ (N + P - 1) / P := Nat.div_le_div_right h1

/-- Peeling one full page off the expected request count. -/
theorem expectedRequests_succ (d P : Nat) (hP : 0 < P) (hd : P < d) :
    expectedRequests d P = expectedRequests (d - P) P + 1 := by
  obtain ⟨e, rfl⟩ : ∃ e, d = e + P := ⟨d - P, by omega⟩
  unfold expectedRequests
  rw [if_neg (by omega), if_neg (by omega)]
  have h1 : e + P + P - 1 = e + P - 1 + P := by omega
  have h2 : e + P - P = e := by omega
  rw [h1, Nat.add_div_right _ hP, h2]

/-- With one to `P` items left, exactly one more request is expected. -/
theorem expectedRequests_last (d P : Nat) (hP : 0 < P) (hd : d ≤ P) :
    expectedRequests d P = 1 := by
  unfold expectedRequests
  split
  · rfl
  · exact Nat.div_eq_of_lt_le (by omega) (by omega)

/-- Loop invariant of the pagination loop over an honest upstream: started
at `offset` with the first `offset` items already accumulated, the loop
returns the whole list and issues exactly the expected number of further
page requests. -/
theorem fetchLoop_honest (L : List WebflowItem) (P : Nat) (hP : 0 < P) :
    ∀ (fuel offset reqs : Nat),
      ((offset = 0 ∧ reqs = 0) ∨ offset < L.length) →
      expectedRequests (L.length - offset) P ≤ fuel →
      fetchLoop (honestPages L P) P fuel offset (L.take offset) reqs =
        some (.ok L, reqs + expectedRequests (L.length - offset) P) := by
  intro fuel
  induction fuel with
  | zero =>
    intro offset reqs _ hfuel
    exact absurd hfuel (by have := expectedRequests_pos (L.length - offset) P hP; omega)
  | succ fuel ih =>
    intro offset reqs hoff hfuel
    have hacc : L.take offset ++ (L.drop offset).take P = L.take (offset + P) :=
      (List.take_add L offset P).symm
    by_cases hd : L.length - offset ≤ P
    · -- final page: the loop stops with this request
      have hcond : (((L.drop offset).take P).length < P ||
          decide ((L.take offset ++ (L.drop offset).take P).length ≥ L.length)) = true := by
        simp only [List.length_take, List.length_drop, List.length_append,
          Bool.or_eq_true, decide_eq_true_eq]
        omega
      have hfull : L.take (offset + P) = L := List.take_of_length_le (by omega)
      simp only [fetchLoop, honestPages]
      rw [hcond, if_pos rfl, hacc, hfull,
        expectedRequests_last (L.length - offset) P hP hd]
    · -- full page and the total not yet reached: the loop recurses
      push_neg at hd
      have hcond : (((L.drop offset).take P).length < P ||
          decide ((L.take offset ++ (L.drop offset).take P).length ≥ L.length)) = false := by
        simp only [List.length_take, List.length_drop, List.length_append,
          Bool.or_eq_false_iff, decide_eq_false_iff_not]
        omega
      have heq : L.length - (offset + P) = L.length - offset - P := by omega
      have harith := expectedRequests_succ (L.length - offset) P hP (by omega)
      have hrec := ih (offset + P) (reqs + 1) (Or.inr (by omega))
        (by rw [heq]; omega)
      simp only [fetchLoop, honestPages]
      rw [hcond, if_neg (by simp), hacc, hrec, heq]
      have hfinal : reqs + 1 + expectedRequests (L.length - offset - P) P =
          reqs + expectedRequests (L.length - offset) P := by omega
      rw [hfinal]

/-- Claim C8: over an honest upstream holding `N` items served in pages of
the requested size `P`, the pagination loop returns exactly the `N` items
and issues exactly `⌈N / P⌉` page requests — no extra empty-page request
when `N` is an exact multiple of `P` (the total check stops the loop), and
exactly one page request when `N = 0`. -/
theorem pagination_complete (L : List WebflowItem) (P fuel : Nat) (hP : 0 < P)
    (hfuel : expectedRequests L.length P ≤ fuel) :
    fetchAllItems (honestPages L P) P fuel =
      some (.ok L, expectedRequests L.length P) := by
  have h := fetchLoop_honest L P hP fuel 0 0 (Or.inl ⟨rfl, rfl⟩)
    (by simpa using hfuel)
  simpa [fetchAllItems] using h

/-- Witness for `pagination_complete`: three items at page size two give
two page requests; the exact-multiple and empty cases evaluate below. -/
theorem pagination_complete_witness :
    0 < 2 ∧
    expectedRequests (List.length
      [WebflowItem.mk "a" [], WebflowItem.mk "b" [], WebflowItem.mk "c" []]) 2 ≤ 10 ∧
    fetchAllItems (honestPages
        [WebflowItem.mk "a" [], WebflowItem.mk "b" [], WebflowItem.mk "c" []] 2) 2 10 =
      some (.ok [WebflowItem.mk "a" [], WebflowItem.mk "b" [], WebflowItem.mk "c" []],
        expectedRequests (List.length
          [WebflowItem.mk "a" [], WebflowItem.mk "b" [], WebflowItem.mk "c" []]) 2) :=
  ⟨by decide, by decide,
    pagination_complete
      [WebflowItem.mk "a" [], WebflowItem.mk "b" [], WebflowItem.mk "c" []] 2 10
      (by decide) (by decide)⟩

/-- Loop invariant over an upstream that always serves full pages of size
`P` while reporting the constant total `T`: the loop keeps requesting
pages until the cumulative count reaches `T`, then stops. -/
theorem fetchLoop_fullPages (item : WebflowItem) (T P : Nat) (hP : 0 < P) :
    ∀ (fuel k : Nat),
      expectedRequests (T - k * P) P ≤ fuel →
      fetchLoop (fullPages item T P) P fuel (k * P) (List.replicate (k * P) item) k =
        some (.ok (List.replicate ((k + expectedRequests (T - k * P) P) * P) item),
          k + expectedRequests (T - k * P) P) := by
  intro fuel
  induction fuel with
  | zero =>
    intro k hfuel
    exact absurd hfuel (by have := expectedRequests_pos (T - k * P) P hP; omega)
  | succ fuel ih =>
    intro k hfuel
    have hacc : List.replicate (k * P) item ++ List.replicate P item =
        List.replicate ((k + 1) * P) item := by
      rw [← List.replicate_add]
      congr 1
      ring
    by_cases hstop : T - k * P ≤ P
    · have hcond : ((List.replicate P item).length < P ||
          decide ((List.replicate (k * P) item ++ List.replicate P item).length ≥ T)) =
            true := by
        simp only [List.length_replicate, List.length_append, Bool.or_eq_true,
          decide_eq_true_eq]
        omega
      simp only [fetchLoop, fullPages]
      rw [hcond, if_pos rfl, hacc, expectedRequests_last (T - k * P) P hP hstop]
    · push_neg at hstop
      have hcond : ((List.replicate P item).length < P ||
          decide ((List.replicate (k * P) item ++ List.replicate P item).length ≥ T)) =
            false := by
        simp only [List.length_replicate, List.length_append, Bool.or_eq_false_iff,
          decide_eq_false_iff_not]
        omega
      have heq : T - (k + 1) * P = T - k * P - P := by
        have : (k + 1) * P = k * P + P := by ring
        omega
      have harith := expectedRequests_succ (T - k * P) P hP (by omega)
      have hrec := ih (k + 1) (by rw [heq]; omega)
      have hoffarith : (k + 1) * P = k * P + P := by ring
      simp only [fetchLoop, fullPages]
      rw [hcond, if_neg (by simp), hacc, ← hoffarith, hrec, heq]
      have hfinal : k + 1 + expectedRequests (T - k * P - P) P =
          k + expectedRequests (T - k * P) P := by omega
      rw [hfinal]

/-- Claim C1 (amended): when every upstream page is full (exactly the
requested page size) and every response reports the constant total `T`,
the loop terminates as soon as the cumulative count reaches `T` — after
`max 1 ⌈T / P⌉` requests — so the cumulative-count-vs-total comparison is
a co-primary termination signal, and a total that undercounts the actual
item count does cause early termination. -/
theorem pagination_total_terminates (item : WebflowItem) (T P fuel : Nat)
    (hP : 0 < P) (hfuel : expectedRequests T P ≤ fuel) :
    fetchAllItems (fullPages item T P) P fuel =
      some (.ok (List.replicate (expectedRequests T P * P) item),
        expectedRequests T P) := by
  have h := fetchLoop_fullPages item T P hP fuel 0 (by simpa using hfuel)
  simpa [fetchAllItems] using h

/-- Witness for `pagination_total_terminates`: full pages of two items and
a reported total of three stop the loop after two requests (four items
accumulated), regardless of how many more items the upstream could serve. -/
theorem pagination_total_terminates_witness :
    0 < 2 ∧ expectedRequests 3 2 ≤ 10 ∧
    fetchAllItems (fullPages (WebflowItem.mk "i" []) 3 2) 2 10 =
      some (.ok (List.replicate (expectedRequests 3 2 * 2) (WebflowItem.mk "i" [])),
        expectedRequests 3 2) :=
  ⟨by decide, by decide,
    pagination_total_terminates (WebflowItem.mk "i" []) 3 2 10 (by decide) (by decide)⟩

/-- Counterexample to claim C1 as stated: an upstream actually holding 200
items, serving them honestly in full pages of the requested size 100, but
reporting a total of 100.  Every returned page has exactly 100 items (the
page at offset 0 is full), yet `fetchCollectionItems` stops after a single
request with only the first 100 items: the undercounting total alone
terminates the fetch prematurely. -/
theorem pagination_early_termination_cex :
    fetchCollectionItems
        (pagesWithTotal (List.replicate 200 (WebflowItem.mk "i" [])) 100 100) 5 =
      some (.ok (List.replicate 100 (WebflowItem.mk "i" [])), 1) ∧
    pagesWithTotal (List.replicate 200 (WebflowItem.mk "i" [])) 100 100 0 =
      .ok ⟨List.replicate 100 (WebflowItem.mk "i" []), 100⟩ ∧
    (List.replicate 100 (WebflowItem.mk "i" [])).length = 100 ∧
    (List.replicate 200 (WebflowItem.mk "i" [])).length = 200 :=
  ⟨rfl, rfl, rfl, rfl⟩

/-- On an ASCII uppercase letter, `Char.toLower` adds 32. -/
theorem toLower_shift (c : Char) (hc : 65 ≤ c.toNat ∧ c.toNat ≤ 90) :
    c.toLower = Char.ofNat (c.toNat + 32) := by
  simp only [Char.toLower]
  split
  · rfl
  · next h => exact absurd hc h

/-- Outside the ASCII uppercase range, `Char.toLower` is the identity. -/
theorem toLower_fix (c : Char) (hc : ¬(65 ≤ c.toNat ∧ c.toNat ≤ 90)) :
    c.toLower = c := by
  simp only [Char.toLower]
  split
  · next h => exact absurd h hc
  · rfl

/-- Lowercasing never produces the LIKE wildcard `%`. -/
theorem toLower_ne_percent (c : Char) (h : c ≠ '%') : c.toLower ≠ '%' := by
  by_cases hc : 65 ≤ c.toNat ∧ c.toNat ≤ 90
  · rw [toLower_shift c hc]
    obtain ⟨h1, h2⟩ := hc
    generalize c.toNat = n at h1 h2
    interval_cases n <;> decide
  · rw [toLower_fix c hc]
    exact h

/-- Lowercasing never produces the LIKE wildcard `_`. -/
theorem toLower_ne_underscore (c : Char) (h : c ≠ '_') : c.toLower ≠ '_' := by
  by_cases hc : 65 ≤ c.toNat ∧ c.toNat ≤ 90
  · rw [toLower_shift c hc]
    obtain ⟨h1, h2⟩ := hc
    generalize c.toNat = n at h1 h2
    interval_cases n <;> decide
  · rw [toLower_fix c hc]
    exact h

/-- ASCII lowercasing is idempotent. -/
theorem toLower_idem (c : Char) : c.toLower.toLower = c.toLower := by
  by_cases hc : 65 ≤ c.toNat ∧ c.toNat ≤ 90
  · rw [toLower_shift c hc]
    obtain ⟨h1, h2⟩ := hc
    generalize c.toNat = n at h1 h2
    interval_cases n <;> decide
  · rw [toLower_fix c hc, toLower_fix c hc]

/-- Idempotence lifted to character lists. -/
theorem lower_map_idem (l : List Char) :
    (l.map Char.toLower).map Char.toLower = l.map Char.toLower := by
  rw [List.map_map]
  exact List.map_congr_left fun a _ => toLower_idem a

/-- Unfolding equation of `likeMatch` on an empty pattern. -/
theorem likeMatch_nil (s : List Char) : likeMatch [] s = s.isEmpty := by
  simp [likeMatch]

/-- Unfolding equation of `likeMatch` on empty text. -/
theorem likeMatch_cons_nil (c : Char) (ps : List Char) :
    likeMatch (c :: ps) [] = if c = '%' then likeMatch ps [] else false := by
  simp only [likeMatch]

/-- Unfolding equation of `likeMatch` on nonempty pattern and text. -/
theorem likeMatch_cons_cons (c : Char) (ps : List Char) (d : Char) (ds : List Char) :
    likeMatch (c :: ps) (d :: ds) =
      if c = '%' then likeMatch ps (d :: ds) || likeMatch (c :: ps) ds
      else if c = '_' then likeMatch ps ds
      else (c.toLower == d.toLower) && likeMatch ps ds := by
  simp only [likeMatch]

/-- A trailing lone `%` matches any remaining text. -/
theorem likeMatch_percent_any (s : List Char) : likeMatch ['%'] s = true := by
  induction s with
  | nil => rw [likeMatch_cons_nil, if_pos rfl, likeMatch_nil]; rfl
  | cons c cs ih =>
    rw [likeMatch_cons_cons, if_pos rfl, likeMatch_nil, ih]
    simp

/-- A leading `%` matches iff the rest of the pattern matches some suffix. -/
theorem likeMatch_percent_cons (ps : List Char) :
    ∀ s : List Char,
      (likeMatch ('%' :: ps) s = true ↔ ∃ t, t <:+ s ∧ likeMatch ps t = true) := by
  intro s
  induction s with
  | nil =>
    rw [likeMatch_cons_nil, if_pos rfl]
    constructor
    · intro h
      exact ⟨[], List.suffix_rfl, h⟩
    · rintro ⟨t, ht, hm⟩
      rw [List.suffix_nil.mp ht] at hm
      exact hm
  | cons c cs ih =>
    rw [likeMatch_cons_cons, if_pos rfl, Bool.or_eq_true]
    constructor
    · rintro (h | h)
      · exact ⟨c :: cs, List.suffix_rfl, h⟩
      · rcases ih.mp h with ⟨t, ht, hm⟩
        exact ⟨t, List.suffix_cons_iff.mpr (Or.inr ht), hm⟩
    · rintro ⟨t, ht, hm⟩
      rcases List.suffix_cons_iff.mp ht with rfl | ht2
      · exact Or.inl hm
      · exact Or.inr (ih.mpr ⟨t, ht2, hm⟩)

/-- A wildcard-free block at the head of a pattern consumes a prefix of the
text of the same length, matching character-wise up to ASCII case. -/
theorem likeMatch_append_block :
    ∀ (q : List Char), (∀ c ∈ q, c ≠ '%' ∧ c ≠ '_') →
      ∀ (ps s : List Char),
        (likeMatch (q ++ ps) s = true ↔
          ∃ s1 s2, s = s1 ++ s2 ∧ s1.map Char.toLower = q.map Char.toLower ∧
            likeMatch ps s2 = true) := by
  intro q
  induction q with
  | nil =>
    intro _ ps s
    simp only [List.nil_append, List.map_nil]
    constructor
    · intro h
      exact ⟨[], s, rfl, rfl, h⟩
    · rintro ⟨s1, s2, rfl, h1, h2⟩
      have : s1 = [] := by simpa using h1
      subst this
      simpa using h2
  | cons a q ihq =>
    intro hq ps s
    have ha := hq a (List.mem_cons_self a q)
    have hq2 : ∀ c ∈ q, c ≠ '%' ∧ c ≠ '_' := fun c hc => hq c (List.mem_cons_of_mem a hc)
    cases s with
    | nil =>
      rw [List.cons_append]
      simp only [likeMatch, if_neg ha.1]
      constructor
      · intro h
        cases h
      · rintro ⟨s1, s2, hsplit, h1, -⟩
        rcases List.append_eq_nil.mp hsplit.symm with ⟨rfl, -⟩
        simp at h1
    | cons c cs =>
      rw [List.cons_append]
      simp only [likeMatch, if_neg ha.1, if_neg ha.2, Bool.and_eq_true, beq_iff_eq]
      rw [ihq hq2 ps cs]
      constructor
      · rintro ⟨hc, s1, s2, rfl, hm, hps⟩
        refine ⟨c :: s1, s2, rfl, ?_, hps⟩
        simp only [List.map_cons, hm, hc]
      · rintro ⟨s1, s2, hsplit, hm, hps⟩
        cases s1 with
        | nil => simp at hm
        | cons c2 s1 =>
          rw [List.cons_append] at hsplit
          obtain ⟨rfl, rfl⟩ : c2 = c ∧ cs = s1 ++ s2 := by
            have h1 := List.cons.injEq c cs c2 (s1 ++ s2) ▸ hsplit
            exact ⟨(List.cons.injEq _ _ _ _ ▸ hsplit).1.symm,
              (List.cons.injEq _ _ _ _ ▸ hsplit).2⟩
          simp only [List.map_cons, List.cons.injEq] at hm
          exact ⟨hm.1.symm, s1, s2, rfl, hm.2, hps⟩

/-- LIKE with a `%`-wrapped wildcard-free pattern is exactly substring
containment up to ASCII case folding. -/
theorem likeMatch_wrap_iff (q s : List Char) (hq : ∀ c ∈ q, c ≠ '%' ∧ c ≠ '_') :
    likeMatch ('%' :: (q ++ ['%'])) s = true ↔
      q.map Char.toLower <:+: s.map Char.toLower := by
  rw [likeMatch_percent_cons]
  constructor
  · rintro ⟨t, ⟨u, rfl⟩, hm⟩
    rw [likeMatch_append_block q hq ['%'] t] at hm
    rcases hm with ⟨t1, t2, rfl, hmap, -⟩
    refine ⟨u.map Char.toLower, t2.map Char.toLower, ?_⟩
    simp only [List.map_append, hmap]
    simp [List.append_assoc]
  · rintro ⟨u, v, huv⟩
    rcases List.map_eq_append_iff.mp huv.symm with ⟨s12, s3, rfl, h12, h3⟩
    rcases List.map_eq_append_iff.mp h12 with ⟨s1, s2, rfl, hu, hq2⟩
    refine ⟨s2 ++ s3, ⟨s1, by simp⟩, ?_⟩
    rw [likeMatch_append_block q hq ['%'] (s2 ++ s3)]
    exact ⟨s2, s3, rfl, hq2, likeMatch_percent_any s3⟩

/-- `String.prototype.includes` decides exactly the substring property the
spec words describe. -/
theorem strIncludes_iff (s sub : String) :
    strIncludes s sub = true ↔ containsSubstring s sub := by
  rw [strIncludes, decide_eq_true_eq]
  constructor
  · rintro ⟨u, v, h⟩
    exact ⟨u, v, h.symm⟩
  · rintro ⟨u, v, h⟩
    exact ⟨u, v, h.symm⟩

/-- Infix containment of the data lists is the substring property. -/
theorem infix_iff_containsSubstring (s sub : String) :
    sub.data <:+: s.data ↔ containsSubstring s sub := by
  constructor
  · rintro ⟨u, v, h⟩
    exact ⟨u, v, h.symm⟩
  · rintro ⟨u, v, h⟩
    exact ⟨u, v, h.symm⟩

/-- The LIKE condition the search route issues for a wildcard-free query
is exactly case-folded substring containment. -/
theorem sqlLike_wrapped_iff (text q : String)
    (hwild : ∀ c ∈ q.data, c ≠ '%' ∧ c ≠ '_') :
    sqlLike text ("%" ++ jsToLower q ++ "%") = true ↔
      containsSubstring (jsToLower text) (jsToLower q) := by
  have hdata : ("%" ++ jsToLower q ++ "%").data =
      '%' :: ((jsToLower q).data ++ ['%']) := rfl
  rw [sqlLike, hdata]
  have hq2 : ∀ c ∈ (jsToLower q).data, c ≠ '%' ∧ c ≠ '_' := by
    intro c hc
    rcases List.mem_map.mp hc with ⟨c0, hc0, rfl⟩
    exact ⟨toLower_ne_percent c0 (hwild c0 hc0).1,
      toLower_ne_underscore c0 (hwild c0 hc0).2⟩
  rw [likeMatch_wrap_iff (jsToLower q).data text.data hq2]
  have e1 : (jsToLower q).data.map Char.toLower = (jsToLower q).data :=
    lower_map_idem q.data
  rw [e1]
  exact infix_iff_containsSubstring (jsToLower text) (jsToLower q)

/-- Claim C2 (amended): in client-side substring mode, for every query
whose trimmed form is nonempty, a row is returned iff its `searchText`
contains the lowercased query as a contiguous substring — for arbitrary
queries, including ones containing `%` or `_`.  In the server LIKE-based
route the equivalence holds for nonempty queries containing no SQL LIKE
wildcard (`%` or `_`), with containment read case-insensitively (SQLite
LIKE folds ASCII case; on sync-produced lowercase `searchText` this is the
same property); queries containing `%` or `_` are not escaped and behave
as wildcards there. -/
theorem substring_search_characterization (items : List ItemRow) (qc : String)
    (st : DbStore) (q : String) :
    (jsTrim qc ≠ "" →
      ∀ r, r ∈ clientSearchItems items qc ↔
        ∃ row ∈ items, rowToClientResult row = r ∧
          containsSubstring row.searchText (jsToLower qc)) ∧
    (q ≠ "" → (∀ c ∈ q.data, c ≠ '%' ∧ c ≠ '_') →
      ∀ r, r ∈ (likeSearchGET st (some q) none).resultsOf ↔
        ∃ row ∈ st.items, itemToResult row = r ∧
          containsSubstring (jsToLower row.searchText) (jsToLower q)) := by
  constructor
  · intro hqc r
    simp only [clientSearchItems, if_neg hqc, List.mem_map, List.mem_filter]
    constructor
    · rintro ⟨row, ⟨hrow, hinc⟩, rfl⟩
      exact ⟨row, hrow, rfl, (strIncludes_iff _ _).mp hinc⟩
    · rintro ⟨row, hrow, rfl, hcs⟩
      exact ⟨row, ⟨hrow, (strIncludes_iff _ _).mpr hcs⟩, rfl⟩
  · intro hq hwild r
    have h1 : strFalsy (some q) = false := by simp [strFalsy, hq]
    have h2 : (jsToLower (collectionsParamOf none) == "all") = true := by decide
    simp only [likeSearchGET, h1, Bool.false_eq_true, if_false, Option.getD_some,
      h2, if_true, SearchResp.resultsOf, List.mem_map, List.mem_filter]
    constructor
    · rintro ⟨row, ⟨hrow, hlike⟩, rfl⟩
      exact ⟨row, hrow, rfl, (sqlLike_wrapped_iff row.searchText q hwild).mp hlike⟩
    · rintro ⟨row, hrow, rfl, hcs⟩
      exact ⟨row, ⟨hrow, (sqlLike_wrapped_iff row.searchText q hwild).mpr hcs⟩, rfl⟩

/-- Witness for `substring_search_characterization`: one row with
`searchText` "red shoes" and the query "red" on both the client path and
the server LIKE path. -/
theorem substring_search_characterization_witness :
    jsTrim "red" ≠ "" ∧
    ("red" : String) ≠ "" ∧
    (∀ c ∈ ("red" : String).data, c ≠ '%' ∧ c ≠ '_') ∧
    (∀ r, r ∈ clientSearchItems
        [ItemRow.mk "i1" "n" "s" "cid" "cs" [] "red shoes"] "red" ↔
      ∃ row ∈ [ItemRow.mk "i1" "n" "s" "cid" "cs" [] "red shoes"],
        rowToClientResult row = r ∧
          containsSubstring row.searchText (jsToLower "red")) ∧
    (∀ r, r ∈ (likeSearchGET
        ⟨[], [ItemRow.mk "i1" "n" "s" "cid" "cs" [] "red shoes"], [], []⟩
        (some "red") none).resultsOf ↔
      ∃ row ∈ [ItemRow.mk "i1" "n" "s" "cid" "cs" [] "red shoes"],
        itemToResult row = r ∧
          containsSubstring (jsToLower row.searchText) (jsToLower "red")) := by
  have h := substring_search_characterization
    [ItemRow.mk "i1" "n" "s" "cid" "cs" [] "red shoes"] "red"
    ⟨[], [ItemRow.mk "i1" "n" "s" "cid" "cs" [] "red shoes"], [], []⟩ "red"
  exact ⟨by decide, by decide, by decide, h.1 (by decide), h.2 (by decide) (by decide)⟩

/-- Counterexample to claim C2 as stated: on the server LIKE route, the
query `"a_c"` is returned for a row whose `searchText` is `"abc"`, although
`"abc"` does not contain `"a_c"` as a contiguous substring — the route
embeds the raw query between `%` anchors with no escaping, so `_` acts as
a one-character wildcard. -/
theorem like_wildcard_cex :
    (likeSearchGET ⟨[], [ItemRow.mk "i1" "n" "s" "cid" "cslug" [] "abc"], [], []⟩
        (some "a_c") none).resultsOf =
      [SearchResult.mk "i1" "n" "s" "cid" []] ∧
    strIncludes "abc" "a_c" = false ∧
    ¬ containsSubstring "abc" "a_c" := by
  refine ⟨?_, by decide, fun hcs => ?_⟩
  · simp [likeSearchGET, strFalsy, collectionsParamOf, jsToLower, sqlLike, likeMatch,
      SearchResp.resultsOf, itemToResult]
  · have h1 : strIncludes "abc" "a_c" = true := (strIncludes_iff "abc" "a_c").mpr hcs
    exact absurd h1 (by decide)

/-- Claim C9 (amended): for every query with at least one (non-whitespace)
token, the formatter splits the quote-doubled query on whitespace, wraps
each token in double quotes (embedded quotes having been doubled), suffixes
it with `*` for prefix matching, and joins the units with single spaces
(adjacent quoted phrases are implicitly AND-combined by FTS5); for an
empty or whitespace-only query it returns the empty phrase `""` instead of
the empty join.  Every full-text search response carries at most 100
result rows (the route's `LIMIT 100`, a deliberate cap). -/
theorem formatFtsQuery_shape_and_cap (q1 q2 : String)
    (ftsM : String → ItemRow → Bool) (st : DbStore) (qo cparam : Option String)
    (h1 : ftsTokens q1 ≠ []) (h2 : ftsTokens q2 = []) :
    formatFtsQuery q1 =
      String.intercalate " " ((ftsTokens q1).map fun w => "\"" ++ w ++ "\"*") ∧
    formatFtsQuery q2 = "\"\"" ∧
    (ftsSearchGET ftsM st qo cparam).resultsOf.length ≤ 100 := by
  refine ⟨?_, ?_, ?_⟩
  · rw [formatFtsQuery, if_neg (by simpa [List.isEmpty_iff] using h1)]
  · rw [formatFtsQuery, if_pos (by simpa [List.isEmpty_iff] using h2)]
  · rw [ftsSearchGET]
    split
    · simp [SearchResp.resultsOf]
    · dsimp only
      split
      · simp only [SearchResp.resultsOf, List.length_map, List.length_take]
        omega
      · simp only [SearchResp.resultsOf, List.length_map, List.length_take]
        omega

/-- Witness for `formatFtsQuery_shape_and_cap` at the two-token query
`"hello world"`, the whitespace-only query `" "`, and a store whose FTS
table holds 150 matching rows, of which at most 100 come back. -/
theorem formatFtsQuery_shape_and_cap_witness :
    ftsTokens "hello world" ≠ [] ∧
    ftsTokens " " = [] ∧
    (formatFtsQuery "hello world" =
        String.intercalate " "
          ((ftsTokens "hello world").map fun w => "\"" ++ w ++ "\"*") ∧
      formatFtsQuery " " = "\"\"" ∧
      (ftsSearchGET (fun _ _ => true)
        ⟨[], [], List.replicate 150 (ItemRow.mk "i" "n" "s" "cid" "cs" [] "x"), []⟩
        (some "x") none).resultsOf.length ≤ 100) :=
  ⟨by decide, by decide,
    formatFtsQuery_shape_and_cap "hello world" " " (fun _ _ => true)
      ⟨[], [], List.replicate 150 (ItemRow.mk "i" "n" "s" "cid" "cs" [] "x"), []⟩
      (some "x") none (by decide) (by decide)⟩

/-- Counterexample to claim C9 as stated: for the whitespace-only query
`" "` there are no tokens, so "joining the escaped, starred tokens" yields
the empty string, but `formatFtsQuery` returns the two-character empty
phrase `""` instead. -/
theorem formatFtsQuery_empty_cex :
    formatFtsQuery " " = "\"\"" ∧
    String.intercalate " " ((ftsTokens " ").map fun w => "\"" ++ w ++ "\"*") = "" ∧
    ("\"\"" : String) ≠ "" :=
  ⟨by decide, by decide, by decide⟩
